import Mathlib

/-
  Verification of the Either library (ts.data.either).

  The repository holds two variants of the Either module:
  - a strict variant (src/either.ts): every combinator first validates its
    Either argument with assertIsEither and raises on non-Either input;
  - a lenient variant (part_001): isLeft treats any non-Right value as a
    Left, no combinator validates its input, and tryCatch is provided.

  Shallow embedding: JavaScript runtime values are modelled by the inductive
  type JSVal; computations that may raise are modelled as Except JSVal A,
  where the error component carries the raised JavaScript value. User-supplied
  callbacks are modelled as functions JSVal -> Except JSVal JSVal so that a
  callback may raise an arbitrary value.
-/

/-- A JavaScript runtime value, restricted to the constructors the library
and its tests exercise: instances of the Right and Left classes, null,
undefined, numbers, strings, arrays, plain objects, and Error or TypeError
instances. -/
inductive JSVal where
  | rightV (v : JSVal)
  | leftV (e : JSVal)
  | null
  | undef
  | num (n : Int)
  | str (s : String)
  | arr (elems : List JSVal)
  | obj
  | errorObj (msg : String)
  | typeErrorObj (msg : String)

mutual

/-- Stringification of a value inside Array.prototype.join: null and
undefined render as the empty string, other values coerce as usual. -/
def elemStr : JSVal → String
  | JSVal.null => ""
  | JSVal.undef => ""
  | JSVal.num n => toString n
  | JSVal.str s => s
  | JSVal.obj => "[object Object]"
  | JSVal.rightV _ => "[object Object]"
  | JSVal.leftV _ => "[object Object]"
  | JSVal.errorObj m => "Error: " ++ m
  | JSVal.typeErrorObj m => "TypeError: " ++ m
  | JSVal.arr xs => joinVals xs
termination_by v => sizeOf v

/-- Array.prototype.join with the default comma separator, as used by the
template-literal coercion of an array. -/
def joinVals : List JSVal → String
  | [] => ""
  | [x] => elemStr x
  | x :: y :: rest => elemStr x ++ "," ++ joinVals (y :: rest)
termination_by xs => sizeOf xs

end

/-- JavaScript template-literal string coercion of a value, as performed by
the template literal inside assertIsEither. -/
def jsToString : JSVal → String
  | JSVal.null => "null"
  | JSVal.undef => "undefined"
  | JSVal.num n => toString n
  | JSVal.str s => s
  | JSVal.obj => "[object Object]"
  | JSVal.rightV _ => "[object Object]"
  | JSVal.leftV _ => "[object Object]"
  | JSVal.errorObj m => "Error: " ++ m
  | JSVal.typeErrorObj m => "TypeError: " ++ m
  | JSVal.arr xs => joinVals xs

/-- value instanceof Right. -/
def instanceOfRight : JSVal → Bool
  | JSVal.rightV _ => true
  | _ => false

/-- value instanceof Left. -/
def instanceOfLeft : JSVal → Bool
  | JSVal.leftV _ => true
  | _ => false

/-- Reading the _value property of a JavaScript value: defined on Right
instances, a TypeError raise on null and undefined, undefined elsewhere. -/
def propValue : JSVal → Except JSVal JSVal
  | JSVal.null =>
      Except.error (JSVal.typeErrorObj "Cannot read properties of null (reading _value)")
  | JSVal.undef =>
      Except.error (JSVal.typeErrorObj "Cannot read properties of undefined (reading _value)")
  | JSVal.rightV v => Except.ok v
  | _ => Except.ok JSVal.undef

/-- Reading the _error property of a JavaScript value: defined on Left
instances, a TypeError raise on null and undefined, undefined elsewhere. -/
def propError : JSVal → Except JSVal JSVal
  | JSVal.null =>
      Except.error (JSVal.typeErrorObj "Cannot read properties of null (reading _error)")
  | JSVal.undef =>
      Except.error (JSVal.typeErrorObj "Cannot read properties of undefined (reading _error)")
  | JSVal.leftV e => Except.ok e
  | _ => Except.ok JSVal.undef

/-- The Error instance raised by assertIsEither for a non-Either value. -/
def notAnEitherError (value : JSVal) : JSVal :=
  JSVal.errorObj ("Value \"" ++ jsToString value ++ "\" is not an Either type")

/-- The handlers object passed to caseOf. -/
structure CaseOfHandlers where
  Right : JSVal → Except JSVal JSVal
  Left : JSVal → Except JSVal JSVal

namespace Strict

/-- assertIsEither from src/either.ts: raises an Error naming the value
unless it is a Right or Left instance. -/
def assertIsEither (value : JSVal) : Except JSVal Unit :=
  if !(instanceOfRight value || instanceOfLeft value) then
    Except.error (notAnEitherError value)
  else
    Except.ok ()

/-- isRight from src/either.ts. -/
def isRight (value : JSVal) : Except JSVal Bool :=
  match assertIsEither value with
  | Except.error e => Except.error e
  | Except.ok _ => Except.ok (instanceOfRight value)

/-- isLeft from src/either.ts. -/
def isLeft (value : JSVal) : Except JSVal Bool :=
  match assertIsEither value with
  | Except.error e => Except.error e
  | Except.ok _ => Except.ok (instanceOfLeft value)

/-- withDefault from src/either.ts. -/
def withDefault (value defaultValue : JSVal) : Except JSVal JSVal :=
  match isLeft value with
  | Except.error e => Except.error e
  | Except.ok true => Except.ok defaultValue
  | Except.ok false => propValue value

/-- map from src/either.ts: the try region wraps both the property access
and the call to f; a raise from either becomes the payload of a new Left. -/
def map (f : JSVal → Except JSVal JSVal) (value : JSVal) : Except JSVal JSVal :=
  match isLeft value with
  | Except.error e => Except.error e
  | Except.ok true => Except.ok value
  | Except.ok false =>
      match (match propValue value with
             | Except.ok a => f a
             | Except.error e => Except.error e) with
      | Except.ok b => Except.ok (JSVal.rightV b)
      | Except.error err => Except.ok (JSVal.leftV err)

/-- andThen from src/either.ts: the result of f is returned directly, and a
raise from f propagates. -/
def andThen (f : JSVal → Except JSVal JSVal) (value : JSVal) : Except JSVal JSVal :=
  match isLeft value with
  | Except.error e => Except.error e
  | Except.ok true => Except.ok value
  | Except.ok false =>
      match propValue value with
      | Except.ok a => f a
      | Except.error e => Except.error e

/-- caseOf from src/either.ts. -/
def caseOf (caseof : CaseOfHandlers) (value : JSVal) : Except JSVal JSVal :=
  match isLeft value with
  | Except.error e => Except.error e
  | Except.ok true =>
      match propError value with
      | Except.ok er => caseof.Left er
      | Except.error e => Except.error e
  | Except.ok false =>
      match propValue value with
      | Except.ok a => caseof.Right a
      | Except.error e => Except.error e

end Strict

namespace Lenient

/-- isRight from part_001: value instanceof Right, with no validation. -/
def isRight (value : JSVal) : Bool :=
  instanceOfRight value

/-- isLeft from part_001: true for any value that is not a Right instance,
invalid values included. -/
def isLeft (value : JSVal) : Bool :=
  !(instanceOfRight value)

/-- withDefault from part_001. -/
def withDefault (value defaultValue : JSVal) : Except JSVal JSVal :=
  match isLeft value with
  | true => Except.ok defaultValue
  | false => propValue value

/-- map from part_001: in the Left branch the value itself is returned; in
the Right branch the try region wraps the property access and the call to f. -/
def map (f : JSVal → Except JSVal JSVal) (value : JSVal) : Except JSVal JSVal :=
  match isLeft value with
  | true => Except.ok value
  | false =>
      match (match propValue value with
             | Except.ok a => f a
             | Except.error e => Except.error e) with
      | Except.ok b => Except.ok (JSVal.rightV b)
      | Except.error err => Except.ok (JSVal.leftV err)

/-- andThen from part_001. -/
def andThen (f : JSVal → Except JSVal JSVal) (value : JSVal) : Except JSVal JSVal :=
  match isLeft value with
  | true => Except.ok value
  | false =>
      match propValue value with
      | Except.ok a => f a
      | Except.error e => Except.error e

/-- caseOf from part_001: the Left branch reads the _error property of the
value before invoking the Left handler, with no validation beforehand. -/
def caseOf (caseof : CaseOfHandlers) (value : JSVal) : Except JSVal JSVal :=
  match isLeft value with
  | true =>
      match propError value with
      | Except.ok er => caseof.Left er
      | Except.error e => Except.error e
  | false =>
      match propValue value with
      | Except.ok a => caseof.Right a
      | Except.error e => Except.error e

/-- tryCatch from part_001: the try region covers only the call to f; the
catch block applies onError to the caught value, so a raise from onError
itself escapes. -/
def tryCatch (f : Unit → Except JSVal JSVal) (onError : JSVal → Except JSVal JSVal) :
    Except JSVal JSVal :=
  match f () with
  | Except.ok v => Except.ok (JSVal.rightV v)
  | Except.error e =>
      match onError e with
      | Except.ok e2 => Except.ok (JSVal.leftV e2)
      | Except.error e2 => Except.error e2

end Lenient

theorem assertIsEither_invalid (v : JSVal)
    (h : (instanceOfRight v || instanceOfLeft v) = false) :
    Strict.assertIsEither v = Except.error (notAnEitherError v) := by
  simp [Strict.assertIsEither, h]

/-- C1: for a Right input and any function f, if f returns normally on the
wrapped value then map yields right of that result, and if f raises err then
map yields left of the raised value itself, with the raise contained inside
map; this holds in both the strict and the lenient variant. -/
theorem map_right_spec (f : JSVal → Except JSVal JSVal) (v : JSVal) :
    (∀ w, f v = Except.ok w →
      Strict.map f (JSVal.rightV v) = Except.ok (JSVal.rightV w) ∧
      Lenient.map f (JSVal.rightV v) = Except.ok (JSVal.rightV w)) ∧
    (∀ err, f v = Except.error err →
      Strict.map f (JSVal.rightV v) = Except.ok (JSVal.leftV err) ∧
      Lenient.map f (JSVal.rightV v) = Except.ok (JSVal.leftV err)) := by
  constructor
  · intro w hw
    constructor <;>
      simp [Strict.map, Lenient.map, Strict.isLeft, Lenient.isLeft, Strict.assertIsEither,
        instanceOfRight, instanceOfLeft, propValue, hw]
  · intro err herr
    constructor <;>
      simp [Strict.map, Lenient.map, Strict.isLeft, Lenient.isLeft, Strict.assertIsEither,
        instanceOfRight, instanceOfLeft, propValue, herr]

theorem map_right_spec_witness :
    Strict.map (fun x => Except.ok x) (JSVal.rightV (JSVal.num 4))
      = Except.ok (JSVal.rightV (JSVal.num 4)) ∧
    Lenient.map (fun _ => Except.error (JSVal.str "boom")) (JSVal.rightV (JSVal.num 4))
      = Except.ok (JSVal.leftV (JSVal.str "boom")) :=
  ⟨((map_right_spec (fun x => Except.ok x) (JSVal.num 4)).1 (JSVal.num 4) rfl).1,
   ((map_right_spec (fun _ => Except.error (JSVal.str "boom")) (JSVal.num 4)).2
     (JSVal.str "boom") rfl).2⟩

/-- C2: in the strict variant, every combinator other than right, left and
tryCatch, when given a value that is neither a Right nor a Left instance,
raises the Error whose message names the offending value, whatever the other
arguments are. -/
theorem strict_invalid_input_raises (v : JSVal)
    (h : (instanceOfRight v || instanceOfLeft v) = false) :
    Strict.isRight v = Except.error (notAnEitherError v) ∧
    Strict.isLeft v = Except.error (notAnEitherError v) ∧
    (∀ d, Strict.withDefault v d = Except.error (notAnEitherError v)) ∧
    (∀ f, Strict.map f v = Except.error (notAnEitherError v)) ∧
    (∀ f, Strict.andThen f v = Except.error (notAnEitherError v)) ∧
    (∀ cs, Strict.caseOf cs v = Except.error (notAnEitherError v)) := by
  have ha := assertIsEither_invalid v h
  refine ⟨?_, ?_, ?_, ?_, ?_, ?_⟩ <;>
    (intros
     simp [Strict.isRight, Strict.isLeft, Strict.withDefault, Strict.map,
       Strict.andThen, Strict.caseOf, ha])

theorem strict_invalid_input_raises_witness :
    (instanceOfRight JSVal.null || instanceOfLeft JSVal.null) = false ∧
    Strict.isLeft JSVal.null
      = Except.error (JSVal.errorObj "Value \"null\" is not an Either type") ∧
    Strict.withDefault JSVal.obj (JSVal.num 0)
      = Except.error (JSVal.errorObj "Value \"[object Object]\" is not an Either type") :=
  ⟨rfl, (strict_invalid_input_raises JSVal.null rfl).2.1,
   (strict_invalid_input_raises JSVal.obj rfl).2.2.1 (JSVal.num 0)⟩

/-- C3: Left is absorbing for map and andThen in both variants: the Left
passes through with the same payload and the supplied function is never
consulted, since the equations hold for every f. -/
theorem left_absorbing (f : JSVal → Except JSVal JSVal) (e : JSVal) :
    Strict.map f (JSVal.leftV e) = Except.ok (JSVal.leftV e) ∧
    Strict.andThen f (JSVal.leftV e) = Except.ok (JSVal.leftV e) ∧
    Lenient.map f (JSVal.leftV e) = Except.ok (JSVal.leftV e) ∧
    Lenient.andThen f (JSVal.leftV e) = Except.ok (JSVal.leftV e) :=
  ⟨rfl, rfl, rfl, rfl⟩

/-- C4: tryCatch invokes f with no arguments; a normal return v gives
right v, a raise err caught from f gives left of onError applied to err,
whatever kind of value was raised; and when onError itself returns normally
on every input, tryCatch always returns normally. -/
theorem tryCatch_spec (f : Unit → Except JSVal JSVal)
    (onError : JSVal → Except JSVal JSVal) :
    (∀ v, f () = Except.ok v →
      Lenient.tryCatch f onError = Except.ok (JSVal.rightV v)) ∧
    (∀ err e2, f () = Except.error err → onError err = Except.ok e2 →
      Lenient.tryCatch f onError = Except.ok (JSVal.leftV e2)) ∧
    ((∀ x, ∃ y, onError x = Except.ok y) →
      ∃ r, Lenient.tryCatch f onError = Except.ok r) := by
  refine ⟨?_, ?_, ?_⟩
  · intro v hv
    simp [Lenient.tryCatch, hv]
  · intro err e2 herr he
    simp [Lenient.tryCatch, herr, he]
  · intro hOn
    cases hf : f () with
    | ok v => exact ⟨JSVal.rightV v, by simp [Lenient.tryCatch, hf]⟩
    | error e =>
        obtain ⟨y, hy⟩ := hOn e
        exact ⟨JSVal.leftV y, by simp [Lenient.tryCatch, hf, hy]⟩

theorem tryCatch_spec_witness :
    Lenient.tryCatch (fun _ => Except.ok (JSVal.num 7)) (fun e => Except.ok e)
      = Except.ok (JSVal.rightV (JSVal.num 7)) ∧
    Lenient.tryCatch (fun _ => Except.error (JSVal.str "boom")) (fun e => Except.ok e)
      = Except.ok (JSVal.leftV (JSVal.str "boom")) :=
  ⟨(tryCatch_spec (fun _ => Except.ok (JSVal.num 7)) (fun e => Except.ok e)).1
     (JSVal.num 7) rfl,
   (tryCatch_spec (fun _ => Except.error (JSVal.str "boom")) (fun e => Except.ok e)).2.1
     (JSVal.str "boom") (JSVal.str "boom") rfl rfl⟩

/-- C5: withDefault on right v yields v in both variants, on a Left it
yields the supplied default, under the lenient policy it yields the default
on every non-Right input, and the lenient variant never raises on any
input. -/
theorem withDefault_spec (v e d w : JSVal) :
    Strict.withDefault (JSVal.rightV v) d = Except.ok v ∧
    Strict.withDefault (JSVal.leftV e) d = Except.ok d ∧
    Lenient.withDefault (JSVal.rightV v) d = Except.ok v ∧
    Lenient.withDefault (JSVal.leftV e) d = Except.ok d ∧
    (instanceOfRight w = false → Lenient.withDefault w d = Except.ok d) ∧
    (∃ r, Lenient.withDefault w d = Except.ok r) := by
  refine ⟨rfl, rfl, rfl, rfl, ?_, ?_⟩
  · intro hw
    simp [Lenient.withDefault, Lenient.isLeft, hw]
  · cases w <;> exact ⟨_, rfl⟩

theorem withDefault_spec_witness :
    instanceOfRight JSVal.null = false ∧
    Lenient.withDefault JSVal.null (JSVal.num 0) = Except.ok (JSVal.num 0) :=
  ⟨rfl,
   (withDefault_spec (JSVal.num 1) JSVal.obj (JSVal.num 0) JSVal.null).2.2.2.2.1 rfl⟩

/-- C6: andThen on a Right input returns the result of f on the wrapped
value directly, with no wrapping or validation of that result; raises from
f propagate because the result is the computation f v itself. -/
theorem andThen_right_direct (f : JSVal → Except JSVal JSVal) (v : JSVal) :
    Strict.andThen f (JSVal.rightV v) = f v ∧
    Lenient.andThen f (JSVal.rightV v) = f v :=
  ⟨rfl, rfl⟩

/-- C7: caseOf is total case analysis on valid Eithers in both variants:
the Right handler receives the wrapped value on a Right, the Left handler
receives the error payload on a Left, and the handler result is returned
directly; in particular the missiles scenario from the documentation
evaluates to the expected string. -/
theorem caseOf_total (cs : CaseOfHandlers) (v e : JSVal) :
    Strict.caseOf cs (JSVal.rightV v) = cs.Right v ∧
    Strict.caseOf cs (JSVal.leftV e) = cs.Left e ∧
    Lenient.caseOf cs (JSVal.rightV v) = cs.Right v ∧
    Lenient.caseOf cs (JSVal.leftV e) = cs.Left e ∧
    Strict.caseOf
      ⟨fun n => Except.ok (JSVal.str ("Launch " ++ jsToString n ++ " missiles")),
       fun er => Except.ok er⟩
      (JSVal.rightV (JSVal.str "5")) = Except.ok (JSVal.str "Launch 5 missiles") :=
  ⟨rfl, rfl, rfl, rfl, rfl⟩

/-- C8: under the lenient policy every invalid input counts as a Left:
isRight is false, isLeft is true, withDefault yields the default, and map
and andThen pass the value through without consulting f, all without
raising. -/
theorem lenient_invalid_as_left (w d : JSVal) (f : JSVal → Except JSVal JSVal)
    (h : (instanceOfRight w || instanceOfLeft w) = false) :
    Lenient.isRight w = false ∧
    Lenient.isLeft w = true ∧
    Lenient.withDefault w d = Except.ok d ∧
    Lenient.map f w = Except.ok w ∧
    Lenient.andThen f w = Except.ok w := by
  have hr : instanceOfRight w = false := by
    cases hx : instanceOfRight w <;> simp_all
  refine ⟨hr, ?_, ?_, ?_, ?_⟩ <;>
    simp [Lenient.isLeft, Lenient.withDefault, Lenient.map, Lenient.andThen, hr]

theorem lenient_invalid_as_left_witness :
    (instanceOfRight JSVal.null || instanceOfLeft JSVal.null) = false ∧
    Lenient.isLeft JSVal.null = true ∧
    Lenient.map (fun x => Except.ok x) JSVal.null = Except.ok JSVal.null :=
  ⟨rfl,
   (lenient_invalid_as_left JSVal.null (JSVal.num 0) (fun x => Except.ok x) rfl).2.1,
   (lenient_invalid_as_left JSVal.null (JSVal.num 0) (fun x => Except.ok x) rfl).2.2.2.1⟩

/-- C9: functor composition on Right inputs holds in both variants,
including when f or g raises, stated with the raised value threaded by the
Except bind on both sides; functor identity on Right inputs also holds. -/
theorem map_compose (f g : JSVal → Except JSVal JSVal) (v : JSVal) :
    (Strict.map f (JSVal.rightV v)).bind (Strict.map g)
      = Strict.map (fun x => (f x).bind g) (JSVal.rightV v) ∧
    (Lenient.map f (JSVal.rightV v)).bind (Lenient.map g)
      = Lenient.map (fun x => (f x).bind g) (JSVal.rightV v) ∧
    Strict.map (fun x => Except.ok x) (JSVal.rightV v) = Except.ok (JSVal.rightV v) := by
  refine ⟨?_, ?_, rfl⟩ <;>
  · cases hf : f v with
    | ok w =>
        cases hg : g w <;>
          simp [Strict.map, Lenient.map, Strict.isLeft, Lenient.isLeft,
            Strict.assertIsEither, instanceOfRight, instanceOfLeft, propValue,
            Except.bind, hf, hg]
    | error err =>
        simp [Strict.map, Lenient.map, Strict.isLeft, Lenient.isLeft,
          Strict.assertIsEither, instanceOfRight, instanceOfLeft, propValue,
          Except.bind, hf]

/-- C10: in the lenient variant, caseOf on an invalid input takes the Left
branch by reading the _error property: a plain object or an array invokes
the Left handler with undefined as payload, while null and undefined make
the property access itself raise a TypeError, so no handler result is
returned. -/
theorem lenient_caseOf_invalid (cs : CaseOfHandlers) :
    Lenient.caseOf cs JSVal.obj = cs.Left JSVal.undef ∧
    (∀ xs, Lenient.caseOf cs (JSVal.arr xs) = cs.Left JSVal.undef) ∧
    Lenient.caseOf cs JSVal.null
      = Except.error (JSVal.typeErrorObj "Cannot read properties of null (reading _error)") ∧
    Lenient.caseOf cs JSVal.undef
      = Except.error (JSVal.typeErrorObj "Cannot read properties of undefined (reading _error)") :=
  ⟨rfl, fun _ => rfl, rfl, rfl⟩
